import Mathlib

/-!
Verification of the sparti-receiver ingestion core (`src/db/index.ts`,
`src/index.ts`, `src/utils/errors.ts`, `src/types.ts`).

The database is an external collaborator, so every store round-trip is
modelled by an oracle describing its outcome: `DBOracle` fixes whether the
single bulk insert, each chunk-level insert, and each individual row insert
succeed, and the functions below are the source's control flow made pure
over those oracles.  Every insert the code issues is additionally recorded
in a trace (`Attempt`), so that path-policy claims (which insert statements
are attempted, with which values) are statable.
-/

namespace Sparti

/-- Embedding of the `AppError` class of `src/utils/errors.ts`: a message plus
an HTTP status code. -/
structure AppError where
  message : String
  statusCode : Nat
  deriving DecidableEq, Repr

/-- One entry of the row-level error list (`RowError` in `src/types.ts`). -/
structure RowError (α : Type) where
  rowIndex : Nat
  rowNumber : Nat
  rowData : α
  error : String
  deriving DecidableEq, Repr

/-- One prepared row of `insertData` in `storeSheetData`:
`{ batchId, rowNumber, data }`.  The payload is opaque
(`Record<string, unknown>`), hence the type parameter. -/
structure InsertRow (α : Type) where
  batchId : Int
  rowNumber : Int
  data : α
  deriving DecidableEq, Repr

instance {α : Type} [Inhabited α] : Inhabited (InsertRow α) := ⟨⟨0, 0, default⟩⟩

/-- A persisted row of the `sheet_data` relation (`SheetData` in
`src/db/schema.ts`): store-assigned `id`, `batchId`, `rowNumber`, opaque
payload and a creation timestamp. -/
structure StoredRow (α : Type) where
  id : Nat
  batchId : Int
  rowNumber : Int
  data : α
  createdAt : Int
  deriving DecidableEq, Repr

/-- The result record returned by `storeSheetData`
(`StoreSheetDataResult` in `src/types.ts`). -/
structure StoreSheetDataResult (α : Type) where
  success : Bool
  batchId : Int
  inserted : Nat
  errors : List (RowError α)
  deriving DecidableEq, Repr

/-- Outcome oracle for the store: `bulkOk` is the outcome of the one
whole-set insert, `chunkOk ci` the outcome of the chunk-level insert of
chunk `ci`, and `rowRes i` the outcome of the individual insert of row `i`
(`none` = success, `some msg` = failure with stringified message `msg`). -/
structure DBOracle where
  bulkOk : Bool
  chunkOk : Nat → Bool
  rowRes : Nat → Option String

/-- One insert statement issued to the store, tagged by the source call
site: the single whole-set insert of `storeSheetData`, a chunk-level insert
inside `insertRowsInChunks`, or an individual row insert. -/
inductive Attempt (α : Type) where
  | bulk (values : List (InsertRow α))
  | chunk (chunkIndex : Nat) (values : List (InsertRow α))
  | row (index : Nat) (value : InsertRow α)
  deriving DecidableEq, Repr

/-- Is this attempt the single whole-set bulk insert? -/
def Attempt.isBulk {α : Type} : Attempt α → Bool
  | .bulk _ => true
  | _ => false

/-- Running state of `insertRowsInChunks`: the `insertedCount` counter, the
`errors` array, plus the trace of insert statements issued so far. -/
structure ChunkOut (α : Type) where
  inserted : Nat
  errors : List (RowError α)
  trace : List (Attempt α)
  deriving DecidableEq, Repr

/-- Decimal value of a digit list (helper for `jsParseInt`). -/
def digitsToNat (ds : List Char) : Nat :=
  ds.foldl (fun a c => a * 10 + (c.toNat - '0'.toNat)) 0

/-- JavaScript `parseInt(s, 10)`: skip leading whitespace, optional sign,
longest leading digit run; `none` models `NaN` (no digits). -/
def jsParseInt (s : String) : Option Int :=
  let cs := s.toList.dropWhile (fun c => c.isWhitespace)
  let signNeg : Bool := match cs with | '-' :: _ => true | _ => false
  let rest : List Char := match cs with
    | '-' :: t => t
    | '+' :: t => t
    | t => t
  let ds := rest.takeWhile (fun c => c.isDigit)
  if ds.isEmpty then none
  else if signNeg then some (-(digitsToNat ds : Int)) else some (digitsToNat ds : Int)

/-- Response of the `SELECT COALESCE(MAX(batch_id), 0) + 1` query in
`getNextBatchId`: either the query failed, or it produced a list of result
rows, each row carrying its `next_batch_id` field value. -/
inductive QueryResp where
  | fail
  | ok (rows : List String)
  deriving DecidableEq, Repr

/-- Embedding of `getNextBatchId` (`src/db/index.ts`): propagate a query
failure as a 500 `AppError`, fail if the response has no first row, parse
the `next_batch_id` field with `parseInt(..., 10)`, fail if the parse gives
`NaN`, and otherwise return the parsed value unchecked. -/
def getNextBatchId (resp : QueryResp) : Except AppError Int :=
  match resp with
  | .fail => .error ⟨"Failed to get next batch ID", 500⟩
  | .ok [] => .error ⟨"Failed to retrieve batch ID from database", 500⟩
  | .ok (v :: _) =>
    match jsParseInt v with
    | none => .error ⟨"Invalid batch ID returned from database", 500⟩
    | some batchId => .ok batchId

/-- The `insertData` array prepared by `storeSheetData`: each row tagged
with the batch id and its 1-indexed position. -/
def mkInsertData {α : Type} (batchId : Int) (sheetDataArray : List α) : List (InsertRow α) :=
  sheetDataArray.mapIdx (fun index row => ⟨batchId, (index : Int) + 1, row⟩)

/-- Body of the individual-insert loop of `insertRowsInChunks`: attempt the
single-row insert of `insertData[i]`; on success increment the counter, on
failure push a `RowError` built from `i`, `i + 1`, `sheetDataArray[i]` and
the stringified error. -/
def rowStep {α : Type} [Inhabited α] (o : DBOracle) (insertData : List (InsertRow α))
    (sheetDataArray : List α) (a : ChunkOut α) (i : Nat) : ChunkOut α :=
  match o.rowRes i with
  | none =>
    ⟨a.inserted + 1, a.errors, a.trace ++ [Attempt.row i (insertData.getD i default)]⟩
  | some msg =>
    ⟨a.inserted, a.errors ++ [⟨i, i + 1, sheetDataArray.getD i default, msg⟩],
      a.trace ++ [Attempt.row i (insertData.getD i default)]⟩

/-- Body of the chunk loop of `insertRowsInChunks` for chunk `chunkIndex`:
slice out the chunk, attempt its chunk-level insert; on success count all
its rows as inserted, on failure fall through to individual inserts of each
row of that chunk. -/
def chunkStep {α : Type} [Inhabited α] (o : DBOracle) (insertData : List (InsertRow α))
    (sheetDataArray : List α) (chunkSize : Nat) (acc : ChunkOut α) (chunkIndex : Nat) :
    ChunkOut α :=
  let start := chunkIndex * chunkSize
  let stop := min (start + chunkSize) insertData.length
  let chunk := (insertData.drop start).take (stop - start)
  if o.chunkOk chunkIndex then
    ⟨acc.inserted + chunk.length, acc.errors, acc.trace ++ [Attempt.chunk chunkIndex chunk]⟩
  else
    (List.range' start (stop - start)).foldl (rowStep o insertData sheetDataArray)
      ⟨acc.inserted, acc.errors, acc.trace ++ [Attempt.chunk chunkIndex chunk]⟩

/-- Embedding of `insertRowsInChunks` (`src/db/index.ts`): iterate over
`Math.ceil(length / chunkSize)` chunks, starting from a zero counter and
empty error list. -/
def insertRowsInChunks {α : Type} [Inhabited α] (o : DBOracle) (insertData : List (InsertRow α))
    (sheetDataArray : List α) (chunkSize : Nat) : ChunkOut α :=
  let totalChunks := (insertData.length + chunkSize - 1) / chunkSize
  (List.range totalChunks).foldl (chunkStep o insertData sheetDataArray chunkSize) ⟨0, [], []⟩

/-- Embedding of `storeSheetData` (`src/db/index.ts`): reject an empty
input with a 400 error, allocate the batch id (propagating its failure),
prepare `insertData`, then: for more than 10000 rows go straight to chunked
inserts of size 5000; otherwise attempt one bulk insert of the whole set
and fall back to chunked inserts only when it fails.  Returns the result
record paired with the trace of insert statements issued. -/
def storeSheetData {α : Type} [Inhabited α] (o : DBOracle) (resp : QueryResp)
    (sheetDataArray : List α) :
    Except AppError (StoreSheetDataResult α × List (Attempt α)) :=
  if sheetDataArray.length = 0 then
    .error ⟨"sheetData array cannot be empty", 400⟩
  else
    match getNextBatchId resp with
    | .error e => .error e
    | .ok batchId =>
      let totalRows := sheetDataArray.length
      let insertData := mkInsertData batchId sheetDataArray
      if totalRows > 10000 then
        let r := insertRowsInChunks o insertData sheetDataArray 5000
        .ok (⟨true, batchId, r.inserted, r.errors⟩, r.trace)
      else if o.bulkOk then
        .ok (⟨true, batchId, totalRows, []⟩, [Attempt.bulk insertData])
      else
        let r := insertRowsInChunks o insertData sheetDataArray 5000
        .ok (⟨true, batchId, r.inserted, r.errors⟩, Attempt.bulk insertData :: r.trace)

section ChunkWriterLemmas

variable {α : Type} [Inhabited α] (o : DBOracle) (d : List (InsertRow α)) (s : List α) (c : Nat)

/-- Proof-side view of `insertRowsInChunks` stopped after `k` chunks. -/
def loopOut (k : Nat) : ChunkOut α :=
  (List.range k).foldl (chunkStep o d s c) ⟨0, [], []⟩

lemma insertRowsInChunks_eq_loopOut :
    insertRowsInChunks o d s c = loopOut o d s c ((d.length + c - 1) / c) := rfl

lemma loopOut_succ (k : Nat) :
    loopOut o d s c (k + 1) = chunkStep o d s c (loopOut o d s c k) k := by
  simp [loopOut, List.range_succ]

lemma rowLoop_sum (l : List Nat) (a : ChunkOut α) :
    (l.foldl (rowStep o d s) a).inserted + ((l.foldl (rowStep o d s) a).errors).length
      = a.inserted + a.errors.length + l.length := by
  induction l generalizing a with
  | nil => simp
  | cons i t ih =>
    rw [List.foldl_cons, ih]
    cases h : o.rowRes i <;> simp [rowStep, h] <;> omega

lemma rowLoop_trace (l : List Nat) (a : ChunkOut α) :
    (l.foldl (rowStep o d s) a).trace
      = a.trace ++ l.map (fun i => Attempt.row i (d.getD i default)) := by
  induction l generalizing a with
  | nil => simp
  | cons i t ih =>
    rw [List.foldl_cons, ih]
    cases h : o.rowRes i <;> simp [rowStep, h]

lemma rowLoop_inserted_of_fail (l : List Nat) (a : ChunkOut α)
    (h : ∀ i ∈ l, (o.rowRes i).isSome) :
    (l.foldl (rowStep o d s) a).inserted = a.inserted := by
  induction l generalizing a with
  | nil => rfl
  | cons i t ih =>
    rw [List.foldl_cons, ih _ (fun j hj => h j (List.mem_cons_of_mem _ hj))]
    have hi := h i (List.mem_cons_self _ _)
    cases hh : o.rowRes i with
    | none => rw [hh] at hi; simp at hi
    | some m => simp [rowStep, hh]

lemma rowLoop_errors_of_ok (l : List Nat) (a : ChunkOut α)
    (h : ∀ i ∈ l, o.rowRes i = none) :
    (l.foldl (rowStep o d s) a).errors = a.errors := by
  induction l generalizing a with
  | nil => rfl
  | cons i t ih =>
    rw [List.foldl_cons, ih _ (fun j hj => h j (List.mem_cons_of_mem _ hj))]
    rw [rowStep, h i (List.mem_cons_self _ _)]

lemma loopOut_sum (hc : 0 < c) :
    ∀ k, k ≤ (d.length + c - 1) / c →
      (loopOut o d s c k).inserted + ((loopOut o d s c k).errors).length
        = min (k * c) d.length := by
  intro k
  induction k with
  | zero => intro _; simp [loopOut]
  | succ k ih =>
    intro hk
    have hk' : k ≤ (d.length + c - 1) / c := Nat.le_of_succ_le hk
    have hlt : k * c < d.length := by
      have h1 : (k + 1) * c ≤ ((d.length + c - 1) / c) * c := Nat.mul_le_mul_right c hk
      have h2 : ((d.length + c - 1) / c) * c ≤ d.length + c - 1 := Nat.div_mul_le_self _ _
      have h3 : (k + 1) * c = k * c + c := by ring
      omega
    have hsum := ih hk'
    rw [loopOut_succ]
    by_cases hck : o.chunkOk k
    · simp only [chunkStep, hck, if_true, List.length_take, List.length_drop]
      have h3 : (k + 1) * c = k * c + c := by ring
      omega
    · simp only [chunkStep, hck, if_false, Bool.false_eq_true]
      rw [rowLoop_sum, List.length_range']
      simp only []
      have h3 : (k + 1) * c = k * c + c := by ring
      omega

lemma loopOut_inserted_of_fail (hchunk : ∀ ci, o.chunkOk ci = false)
    (hrow : ∀ i, (o.rowRes i).isSome) :
    ∀ k, (loopOut o d s c k).inserted = 0 := by
  intro k
  induction k with
  | zero => rfl
  | succ k ih =>
    rw [loopOut_succ]
    simp only [chunkStep, hchunk k, if_false, Bool.false_eq_true]
    rw [rowLoop_inserted_of_fail _ _ _ _ _ (fun i _ => hrow i)]
    exact ih

lemma loopOut_errors_of_ok (hrow : ∀ i, i < d.length → o.rowRes i = none) :
    ∀ k, (loopOut o d s c k).errors = [] := by
  intro k
  induction k with
  | zero => rfl
  | succ k ih =>
    rw [loopOut_succ]
    by_cases hck : o.chunkOk k
    · simp only [chunkStep, hck, if_true]
      exact ih
    · simp only [chunkStep, hck, if_false, Bool.false_eq_true]
      rw [rowLoop_errors_of_ok]
      · exact ih
      · intro i hi
        rcases List.mem_range'_1.mp hi with ⟨h1, h2⟩
        apply hrow
        omega

/-- Insert statements issued for one chunk: its chunk-level attempt, then
one individual attempt per row of the chunk when the chunk attempt failed. -/
def chunkTraceOf (ci : Nat) : List (Attempt α) :=
  let start := ci * c
  let stop := min (start + c) d.length
  Attempt.chunk ci ((d.drop start).take (stop - start)) ::
    (if o.chunkOk ci then []
     else (List.range' start (stop - start)).map (fun i => Attempt.row i (d.getD i default)))

lemma loopOut_trace :
    ∀ k, (loopOut o d s c k).trace = (List.range k).flatMap (chunkTraceOf o d c) := by
  intro k
  induction k with
  | zero => rfl
  | succ k ih =>
    rw [loopOut_succ, List.range_succ, List.flatMap_append]
    by_cases hck : o.chunkOk k
    · simp only [chunkStep, hck, if_true]
      rw [ih]
      simp [chunkTraceOf, hck]
    · simp only [chunkStep, hck, if_false, Bool.false_eq_true]
      rw [rowLoop_trace]
      simp only [ih]
      simp [chunkTraceOf, hck]

lemma insertRowsInChunks_sum (hc : 0 < c) :
    (insertRowsInChunks o d s c).inserted + ((insertRowsInChunks o d s c).errors).length
      = d.length := by
  rw [insertRowsInChunks_eq_loopOut, loopOut_sum o d s c hc _ le_rfl]
  have h1 := Nat.div_add_mod (d.length + c - 1) c
  have h2 : (d.length + c - 1) % c < c := Nat.mod_lt _ hc
  have h3 : ((d.length + c - 1) / c) * c = c * ((d.length + c - 1) / c) := Nat.mul_comm _ _
  omega

lemma insertRowsInChunks_trace_no_bulk :
    ((insertRowsInChunks o d s c).trace.all (fun a => !a.isBulk)) = true := by
  rw [insertRowsInChunks_eq_loopOut, loopOut_trace]
  rw [List.all_eq_true]
  intro a ha
  rcases List.mem_flatMap.mp ha with ⟨ci, _, hmem⟩
  simp only [chunkTraceOf] at hmem
  rcases List.mem_cons.mp hmem with h | h
  · subst h; rfl
  · by_cases hck : o.chunkOk ci
    · simp [hck] at h
    · simp only [hck, if_false, Bool.false_eq_true, List.mem_map] at h
      rcases h with ⟨i, _, rfl⟩
      rfl

lemma insertRowsInChunks_rows_from_failed_chunks :
    ((insertRowsInChunks o d s 5000).trace.all (fun a =>
      match a with
      | Attempt.row i _ => !o.chunkOk (i / 5000)
      | _ => true)) = true := by
  rw [insertRowsInChunks_eq_loopOut, loopOut_trace]
  rw [List.all_eq_true]
  intro a ha
  rcases List.mem_flatMap.mp ha with ⟨ci, _, hmem⟩
  simp only [chunkTraceOf] at hmem
  rcases List.mem_cons.mp hmem with h | h
  · subst h; rfl
  · by_cases hck : o.chunkOk ci
    · simp [hck] at h
    · simp only [hck, if_false, Bool.false_eq_true, List.mem_map] at h
      rcases h with ⟨i, hi, rfl⟩
      rcases List.mem_range'_1.mp hi with ⟨h1, h2⟩
      have hdiv : i / 5000 = ci := by omega
      simp [hdiv, hck]

lemma storeSheetData_eq (resp : QueryResp) (rows : List α) (b : Int)
    (hne : rows.length ≠ 0) (hb : getNextBatchId resp = .ok b) :
    storeSheetData o resp rows =
      (if rows.length > 10000 then
        .ok (⟨true, b, (insertRowsInChunks o (mkInsertData b rows) rows 5000).inserted,
              (insertRowsInChunks o (mkInsertData b rows) rows 5000).errors⟩,
            (insertRowsInChunks o (mkInsertData b rows) rows 5000).trace)
      else if o.bulkOk then
        .ok (⟨true, b, rows.length, []⟩, [Attempt.bulk (mkInsertData b rows)])
      else
        .ok (⟨true, b, (insertRowsInChunks o (mkInsertData b rows) rows 5000).inserted,
              (insertRowsInChunks o (mkInsertData b rows) rows 5000).errors⟩,
            Attempt.bulk (mkInsertData b rows) ::
              (insertRowsInChunks o (mkInsertData b rows) rows 5000).trace)) := by
  unfold storeSheetData
  rw [if_neg hne, hb]

end ChunkWriterLemmas

/-- Does this attempt's individual row insert belong to a chunk whose
chunk-level insert failed? (Chunk and bulk attempts pass trivially.) -/
def rowFromFailedChunk {α : Type} (o : DBOracle) (c : Nat) : Attempt α → Bool
  | .row i _ => !o.chunkOk (i / c)
  | _ => true

lemma mkInsertData_length {α : Type} (b : Int) (rows : List α) :
    (mkInsertData b rows).length = rows.length := by
  simp [mkInsertData]

lemma length_ne_zero_of_ne_nil {α : Type} {rows : List α} (h : rows ≠ []) :
    rows.length ≠ 0 :=
  fun hl => h (List.length_eq_zero.mp hl)

/-- Claim C1: for every non-empty input row list, `storeSheetData` returns a
result with `inserted + errors.length` equal to the input length — each input
row is counted exactly once, either in the inserted counter or as exactly one
`RowError` entry, whatever the outcomes of the bulk, chunk and row inserts. -/
theorem storeSheetData_row_accounting {α : Type} [Inhabited α] (o : DBOracle)
    (resp : QueryResp) (rows : List α) (b : Int)
    (pr : StoreSheetDataResult α × List (Attempt α))
    (hne : rows ≠ []) (hb : getNextBatchId resp = .ok b)
    (hok : storeSheetData o resp rows = .ok pr) :
    pr.1.inserted + pr.1.errors.length = rows.length := by
  have hlen : rows.length ≠ 0 := length_ne_zero_of_ne_nil hne
  rw [storeSheetData_eq o resp rows b hlen hb] at hok
  have hd := mkInsertData_length b rows
  by_cases hbig : rows.length > 10000
  · rw [if_pos hbig] at hok
    simp only [Except.ok.injEq] at hok
    subst hok
    simpa [hd] using insertRowsInChunks_sum o (mkInsertData b rows) rows 5000 (by norm_num)
  · rw [if_neg hbig] at hok
    by_cases hbulk : o.bulkOk
    · rw [if_pos hbulk] at hok
      simp only [Except.ok.injEq] at hok
      subst hok
      simp
    · rw [if_neg hbulk] at hok
      simp only [Except.ok.injEq] at hok
      subst hok
      simpa [hd] using insertRowsInChunks_sum o (mkInsertData b rows) rows 5000 (by norm_num)

/-- Claim C2: row-level insertion failures never fail the overall call: for
any store behaviour `storeSheetData` returns `.ok` (given a successful
allocation and non-empty input), and when the bulk insert, every chunk
insert and every individual row insert fail, it still returns
`success := true` with `inserted = 0` and one error entry per input row. -/
theorem storeSheetData_failures_recovered {α : Type} [Inhabited α]
    (o ofail : DBOracle) (resp : QueryResp) (rows : List α) (b : Int)
    (pr : StoreSheetDataResult α × List (Attempt α))
    (hne : rows ≠ []) (hb : getNextBatchId resp = .ok b)
    (hbulk : ofail.bulkOk = false)
    (hchunk : ∀ ci, ofail.chunkOk ci = false)
    (hrow : ∀ i, (ofail.rowRes i).isSome)
    (hok : storeSheetData ofail resp rows = .ok pr) :
    (storeSheetData o resp rows).isOk = true ∧
      pr.1.success = true ∧ pr.1.inserted = 0 ∧ pr.1.errors.length = rows.length := by
  have hlen : rows.length ≠ 0 := length_ne_zero_of_ne_nil hne
  have hd := mkInsertData_length b rows
  have hins : (insertRowsInChunks ofail (mkInsertData b rows) rows 5000).inserted = 0 := by
    rw [insertRowsInChunks_eq_loopOut]
    exact loopOut_inserted_of_fail ofail _ rows 5000 hchunk hrow _
  have hsum := insertRowsInChunks_sum ofail (mkInsertData b rows) rows 5000 (by norm_num)
  constructor
  · rw [storeSheetData_eq o resp rows b hlen hb]
    split_ifs <;> rfl
  · rw [storeSheetData_eq ofail resp rows b hlen hb] at hok
    by_cases hbig : rows.length > 10000
    · rw [if_pos hbig] at hok
      simp only [Except.ok.injEq] at hok
      subst hok
      refine ⟨rfl, hins, ?_⟩
      show (insertRowsInChunks ofail (mkInsertData b rows) rows 5000).errors.length = rows.length
      omega
    · rw [if_neg hbig] at hok
      simp only [hbulk, Bool.false_eq_true, if_false, Except.ok.injEq] at hok
      subst hok
      refine ⟨rfl, hins, ?_⟩
      show (insertRowsInChunks ofail (mkInsertData b rows) rows 5000).errors.length = rows.length
      omega

/-- Claim C4 (degradation correctness): when the input is small enough to
attempt the bulk path, the bulk insert fails, and every individual row
insert succeeds (chunk inserts arbitrary), `storeSheetData` returns the very
result the successful bulk path returns: all rows inserted and no errors. -/
theorem storeSheetData_degraded_equals_bulk {α : Type} [Inhabited α]
    (o : DBOracle) (resp : QueryResp) (rows : List α) (b : Int)
    (pr : StoreSheetDataResult α × List (Attempt α))
    (hne : rows ≠ []) (hsmall : rows.length ≤ 10000)
    (hbulk : o.bulkOk = false)
    (hrow : ∀ i, i < rows.length → o.rowRes i = none)
    (hb : getNextBatchId resp = .ok b)
    (hok : storeSheetData o resp rows = .ok pr) :
    pr.1 = ⟨true, b, rows.length, []⟩ := by
  have hlen : rows.length ≠ 0 := length_ne_zero_of_ne_nil hne
  have hd := mkInsertData_length b rows
  rw [storeSheetData_eq o resp rows b hlen hb] at hok
  have herr : (insertRowsInChunks o (mkInsertData b rows) rows 5000).errors = [] := by
    rw [insertRowsInChunks_eq_loopOut]
    apply loopOut_errors_of_ok
    intro i hi
    rw [hd] at hi
    exact hrow i hi
  have hsum := insertRowsInChunks_sum o (mkInsertData b rows) rows 5000 (by norm_num)
  rw [herr] at hsum
  have hins : (insertRowsInChunks o (mkInsertData b rows) rows 5000).inserted
      = rows.length := by
    simpa [hd] using hsum
  rw [if_neg (by omega : ¬rows.length > 10000)] at hok
  simp only [hbulk, Bool.false_eq_true, if_false, Except.ok.injEq] at hok
  subst hok
  simp [hins, herr]

/-- Claim C3 (size-threshold policy): with more than 10000 input rows the
single bulk insert is skipped entirely and the trace is exactly the chunked
trace (chunk size 5000), which contains no whole-set bulk attempt; with at
most 10000 rows the first attempt is the bulk insert of the whole prepared
set, followed by nothing when it succeeds, and by the chunked trace exactly
when it fails. -/
theorem storeSheetData_threshold_policy {α : Type} [Inhabited α] (o : DBOracle)
    (resp : QueryResp) (rows : List α) (b : Int)
    (pr : StoreSheetDataResult α × List (Attempt α))
    (hne : rows ≠ []) (hb : getNextBatchId resp = .ok b)
    (hok : storeSheetData o resp rows = .ok pr) :
    pr.2 = (if 10000 < rows.length then
              (insertRowsInChunks o (mkInsertData b rows) rows 5000).trace
            else
              Attempt.bulk (mkInsertData b rows) ::
                (if o.bulkOk then []
                 else (insertRowsInChunks o (mkInsertData b rows) rows 5000).trace))
      ∧ ((insertRowsInChunks o (mkInsertData b rows) rows 5000).trace.all
          (fun a => !a.isBulk)) = true := by
  have hlen : rows.length ≠ 0 := length_ne_zero_of_ne_nil hne
  rw [storeSheetData_eq o resp rows b hlen hb] at hok
  refine ⟨?_, insertRowsInChunks_trace_no_bulk o (mkInsertData b rows) rows 5000⟩
  by_cases hbig : rows.length > 10000
  · rw [if_pos hbig] at hok
    simp only [Except.ok.injEq] at hok
    subst hok
    simp [hbig]
  · rw [if_neg hbig] at hok
    by_cases hbulk : o.bulkOk
    · rw [if_pos hbulk] at hok
      simp only [Except.ok.injEq] at hok
      subst hok
      simp [hbig, hbulk]
    · rw [if_neg hbulk] at hok
      simp only [Except.ok.injEq] at hok
      subst hok
      simp [hbig, hbulk]

/-- Claim C9 (implicit fallback structure): when a small dataset's bulk
insert fails, the fallback first re-attempts chunk-level inserts — for at
most 5000 rows this is a second insert of the very same whole prepared set —
and individual row inserts appear in the trace only for rows whose chunk's
chunk-level insert also failed. -/
theorem storeSheetData_fallback_structure {α : Type} [Inhabited α]
    (o : DBOracle) (resp : QueryResp) (rows : List α) (b : Int)
    (pr : StoreSheetDataResult α × List (Attempt α))
    (hne : rows ≠ []) (hsmall : rows.length ≤ 10000)
    (hbulk : o.bulkOk = false) (hb : getNextBatchId resp = .ok b)
    (hok : storeSheetData o resp rows = .ok pr) :
    pr.2 = Attempt.bulk (mkInsertData b rows) ::
        (insertRowsInChunks o (mkInsertData b rows) rows 5000).trace
      ∧ (if rows.length ≤ 5000 then
          (insertRowsInChunks o (mkInsertData b rows) rows 5000).trace
            = Attempt.chunk 0 (mkInsertData b rows) ::
                (if o.chunkOk 0 then []
                 else (List.range rows.length).map
                   (fun i => Attempt.row i ((mkInsertData b rows).getD i default)))
         else True)
      ∧ pr.2.all (rowFromFailedChunk o 5000) = true := by
  have hlen : rows.length ≠ 0 := length_ne_zero_of_ne_nil hne
  have hd := mkInsertData_length b rows
  rw [storeSheetData_eq o resp rows b hlen hb] at hok
  rw [if_neg (by omega : ¬rows.length > 10000)] at hok
  simp only [hbulk, Bool.false_eq_true, if_false, Except.ok.injEq] at hok
  subst hok
  refine ⟨rfl, ?_, ?_⟩
  · by_cases h5 : rows.length ≤ 5000
    · rw [if_pos h5]
      have htc : ((mkInsertData b rows).length + 5000 - 1) / 5000 = 1 := by
        rw [hd]; omega
      rw [insertRowsInChunks_eq_loopOut, loopOut_trace, htc]
      have hr1 : List.range 1 = [0] := rfl
      rw [hr1]
      simp only [List.flatMap_cons, List.flatMap_nil, List.append_nil, chunkTraceOf]
      have hstop : min (0 * 5000 + 5000) (mkInsertData b rows).length
          = (mkInsertData b rows).length := by
        rw [hd]; omega
      rw [hstop]
      simp [List.take_length, hd, List.range_eq_range']
    · rw [if_neg h5]
      trivial
  · rw [List.all_cons]
    have h1 : rowFromFailedChunk (α := α) o 5000 (Attempt.bulk (mkInsertData b rows)) = true := rfl
    rw [h1, Bool.true_and]
    have := insertRowsInChunks_rows_from_failed_chunks o (mkInsertData b rows) rows
    convert this using 2

/-! Concrete fixtures used by the witness theorems. -/

/-- Store oracle where every insert succeeds. -/
def oAllOk : DBOracle := ⟨true, fun _ => true, fun _ => none⟩

/-- Store oracle where the bulk, every chunk and every row insert fail. -/
def oAllFail : DBOracle := ⟨false, fun _ => false, fun _ => some "insert failed"⟩

/-- Store oracle where bulk and chunk inserts fail but every individual row
insert succeeds. -/
def oDegraded : DBOracle := ⟨false, fun _ => false, fun _ => none⟩

/-- A small concrete upload. -/
def wRows : List String := ["a", "b", "c"]

/-- A successful allocation-query response carrying `next_batch_id = "1"`. -/
def wResp : QueryResp := QueryResp.ok ["1"]

/-- The concrete output of `storeSheetData` under `oAllFail`. -/
def wPrFail : StoreSheetDataResult String × List (Attempt String) :=
  ((storeSheetData oAllFail wResp wRows).toOption).getD (⟨false, 0, 0, []⟩, [])

/-- The concrete output of `storeSheetData` under `oDegraded`. -/
def wPrDegraded : StoreSheetDataResult String × List (Attempt String) :=
  ((storeSheetData oDegraded wResp wRows).toOption).getD (⟨false, 0, 0, []⟩, [])

/-- The concrete output of `storeSheetData` under `oAllOk`. -/
def wPrOk : StoreSheetDataResult String × List (Attempt String) :=
  ((storeSheetData oAllOk wResp wRows).toOption).getD (⟨false, 0, 0, []⟩, [])

/-- Witness for C1 at a concrete three-row upload whose every insert fails. -/
theorem storeSheetData_row_accounting_witness :
    wRows ≠ [] ∧ getNextBatchId wResp = Except.ok 1 ∧
      storeSheetData oAllFail wResp wRows = Except.ok wPrFail ∧
      wPrFail.1.inserted + wPrFail.1.errors.length = wRows.length :=
  ⟨by decide, by rfl, by rfl,
    storeSheetData_row_accounting oAllFail wResp wRows 1 wPrFail (by decide) (by rfl) (by rfl)⟩

/-- Witness for C2 at a concrete three-row upload whose every insert fails. -/
theorem storeSheetData_failures_recovered_witness :
    wRows ≠ [] ∧ getNextBatchId wResp = Except.ok 1 ∧ oAllFail.bulkOk = false ∧
      storeSheetData oAllFail wResp wRows = Except.ok wPrFail ∧
      ((storeSheetData oAllOk wResp wRows).isOk = true ∧
        wPrFail.1.success = true ∧ wPrFail.1.inserted = 0 ∧
        wPrFail.1.errors.length = wRows.length) :=
  ⟨by decide, by rfl, by rfl, by rfl,
    storeSheetData_failures_recovered oAllOk oAllFail wResp wRows 1 wPrFail
      (by decide) (by rfl) (by rfl) (fun _ => rfl) (fun _ => rfl) (by rfl)⟩

/-- Witness for C4 at a concrete three-row upload where the bulk and chunk
inserts fail but every individual row insert succeeds. -/
theorem storeSheetData_degraded_equals_bulk_witness :
    wRows ≠ [] ∧ wRows.length ≤ 10000 ∧ oDegraded.bulkOk = false ∧
      getNextBatchId wResp = Except.ok 1 ∧
      storeSheetData oDegraded wResp wRows = Except.ok wPrDegraded ∧
      wPrDegraded.1 = ⟨true, 1, wRows.length, []⟩ :=
  ⟨by decide, by decide, by rfl, by rfl, by rfl,
    storeSheetData_degraded_equals_bulk oDegraded wResp wRows 1 wPrDegraded
      (by decide) (by decide) (by rfl) (fun _ _ => rfl) (by rfl) (by rfl)⟩

/-- Witness for C3 at a concrete three-row upload with an all-success store. -/
theorem storeSheetData_threshold_policy_witness :
    wRows ≠ [] ∧ getNextBatchId wResp = Except.ok 1 ∧
      storeSheetData oAllOk wResp wRows = Except.ok wPrOk ∧
      (wPrOk.2 = (if 10000 < wRows.length then
                    (insertRowsInChunks oAllOk (mkInsertData 1 wRows) wRows 5000).trace
                  else
                    Attempt.bulk (mkInsertData 1 wRows) ::
                      (if oAllOk.bulkOk then []
                       else (insertRowsInChunks oAllOk (mkInsertData 1 wRows) wRows 5000).trace))
        ∧ ((insertRowsInChunks oAllOk (mkInsertData 1 wRows) wRows 5000).trace.all
            (fun a => !a.isBulk)) = true) :=
  ⟨by decide, by rfl, by rfl,
    storeSheetData_threshold_policy oAllOk wResp wRows 1 wPrOk (by decide) (by rfl) (by rfl)⟩

/-- Witness for C9 at a concrete three-row upload where the bulk insert and
the chunk insert fail and the rows are inserted individually. -/
theorem storeSheetData_fallback_structure_witness :
    wRows ≠ [] ∧ wRows.length ≤ 10000 ∧ oDegraded.bulkOk = false ∧
      getNextBatchId wResp = Except.ok 1 ∧
      storeSheetData oDegraded wResp wRows = Except.ok wPrDegraded ∧
      (wPrDegraded.2 = Attempt.bulk (mkInsertData 1 wRows) ::
          (insertRowsInChunks oDegraded (mkInsertData 1 wRows) wRows 5000).trace
        ∧ (if wRows.length ≤ 5000 then
            (insertRowsInChunks oDegraded (mkInsertData 1 wRows) wRows 5000).trace
              = Attempt.chunk 0 (mkInsertData 1 wRows) ::
                  (if oDegraded.chunkOk 0 then []
                   else (List.range wRows.length).map
                     (fun i => Attempt.row i ((mkInsertData 1 wRows).getD i default)))
           else True)
        ∧ wPrDegraded.2.all (rowFromFailedChunk oDegraded 5000) = true) :=
  ⟨by decide, by decide, by rfl, by rfl, by rfl,
    storeSheetData_fallback_structure oDegraded wResp wRows 1 wPrDegraded
      (by decide) (by decide) (by rfl) (by rfl) (by rfl)⟩

/-! The allocator at the store level.  `getNextBatchId`'s SELECT computes
`COALESCE(MAX(batch_id), 0) + 1` over the rows currently in `sheet_data`;
`getNextBatchIdOf` is that computation over an explicit store content. -/

/-- SQL `COALESCE(MAX(batch_id), 0)` over the current store rows. -/
def maxBatchId {α : Type} (store : List (StoredRow α)) : Int :=
  match store.map (fun r => r.batchId) with
  | [] => 0
  | x :: xs => xs.foldl max x

/-- The value `getNextBatchId`'s query computes over the current store:
`COALESCE(MAX(batch_id), 0) + 1`. -/
def getNextBatchIdOf {α : Type} (store : List (StoredRow α)) : Int :=
  maxBatchId store + 1

lemma foldl_max_le_self (t : List Int) (a : Int) : a ≤ t.foldl max a := by
  induction t generalizing a with
  | nil => exact le_refl a
  | cons x xs ih => exact le_trans (le_max_left a x) (ih (max a x))

lemma foldl_max_le_of_mem (t : List Int) (a x : Int) (hx : x ∈ t) : x ≤ t.foldl max a := by
  induction t generalizing a with
  | nil => cases hx
  | cons y ys ih =>
    rcases List.mem_cons.mp hx with rfl | h
    · exact le_trans (le_max_right a x) (foldl_max_le_self ys (max a x))
    · exact ih (max a y) h

lemma foldl_max_cases (t : List Int) (a : Int) : t.foldl max a = a ∨ t.foldl max a ∈ t := by
  induction t generalizing a with
  | nil => left; rfl
  | cons x xs ih =>
    rcases ih (max a x) with h | h
    · rcases max_cases a x with ⟨h1, _⟩ | ⟨h1, _⟩
      · left; rw [List.foldl_cons, h, h1]
      · right; rw [List.foldl_cons, h, h1]; exact List.mem_cons_self _ _
    · right; exact List.mem_cons_of_mem _ h

lemma batchId_le_maxBatchId {α : Type} (store : List (StoredRow α)) (r : StoredRow α)
    (hr : r ∈ store) : r.batchId ≤ maxBatchId store := by
  have hmem : r.batchId ∈ store.map (fun r => r.batchId) := List.mem_map_of_mem _ hr
  unfold maxBatchId
  cases h : store.map (fun r => r.batchId) with
  | nil => rw [h] at hmem; cases hmem
  | cons x xs =>
    rw [h] at hmem
    rcases List.mem_cons.mp hmem with h1 | h1
    · rw [h1]; exact foldl_max_le_self xs x
    · exact foldl_max_le_of_mem xs x _ h1

lemma maxBatchId_mem {α : Type} (store : List (StoredRow α)) (h : store ≠ []) :
    maxBatchId store ∈ store.map (fun r => r.batchId) := by
  unfold maxBatchId
  cases hm : store.map (fun r => r.batchId) with
  | nil => exact absurd (List.map_eq_nil_iff.mp hm) h
  | cons x xs =>
    show xs.foldl max x ∈ x :: xs
    rcases foldl_max_cases xs x with h1 | h1
    · rw [h1]; exact List.mem_cons_self _ _
    · exact List.mem_cons_of_mem _ h1

/-- Claim C5, amended: sequential allocations are strictly increasing (by
exactly one) provided the batch that consumed the previous identifier left
at least one surviving row tagged with it.  (As stated the claim is false:
with zero surviving rows the store is unchanged and the identifier is
reused — see the counterexample.) -/
theorem getNextBatchIdOf_strictly_increasing {α : Type} (s new : List (StoredRow α))
    (hne : new ≠ []) (hids : ∀ r ∈ new, r.batchId = getNextBatchIdOf s) :
    getNextBatchIdOf (s ++ new) = getNextBatchIdOf s + 1 ∧
      getNextBatchIdOf s < getNextBatchIdOf (s ++ new) := by
  suffices h : maxBatchId (s ++ new) = maxBatchId s + 1 by
    unfold getNextBatchIdOf
    omega
  obtain ⟨y, hy⟩ := List.exists_mem_of_ne_nil new hne
  have hyid : y.batchId = maxBatchId s + 1 := by
    have := hids y hy
    unfold getNextBatchIdOf at this
    exact this
  have hle : maxBatchId s + 1 ≤ maxBatchId (s ++ new) := by
    rw [← hyid]
    exact batchId_le_maxBatchId _ y (List.mem_append_right _ hy)
  have hub : maxBatchId (s ++ new) ≤ maxBatchId s + 1 := by
    have hne2 : s ++ new ≠ [] := by
      intro hc
      exact hne (List.append_eq_nil.mp hc).2
    rcases List.mem_map.mp (maxBatchId_mem (s ++ new) hne2) with ⟨r, hrmem, hreq⟩
    rcases List.mem_append.mp hrmem with hrs | hrn
    · have := batchId_le_maxBatchId s r hrs
      omega
    · have := hids r hrn
      unfold getNextBatchIdOf at this
      omega
  omega

/-- The store before the counterexample scenario: one surviving row of
batch 1. -/
def cexStore : List (StoredRow String) := [⟨1, 1, 1, "a", 0⟩]

/-- Counterexample to C5 as stated: allocation over `cexStore` returns 2;
the batch consuming identifier 2 loses every row, so the store gains no row
(appending the empty surviving-row list), and the next allocation returns 2
again — the sequence of allocated identifiers is not strictly increasing and
identifier 2 is returned again by a later allocation. -/
theorem getNextBatchIdOf_reuse_counterexample :
    getNextBatchIdOf cexStore = 2 ∧
      getNextBatchIdOf (cexStore ++ ([] : List (StoredRow String))) = 2 ∧
      ¬getNextBatchIdOf cexStore
          < getNextBatchIdOf (cexStore ++ ([] : List (StoredRow String))) := by
  decide

/-- The surviving rows of batch 2 in the witness scenario. -/
def cexNew : List (StoredRow String) := [⟨2, 2, 1, "b", 0⟩]

/-- Witness for the amended C5: with one surviving row of batch 2, the next
allocation over the grown store returns 3 > 2. -/
theorem getNextBatchIdOf_strictly_increasing_witness :
    cexNew ≠ [] ∧
      (getNextBatchIdOf (cexStore ++ cexNew) = getNextBatchIdOf cexStore + 1 ∧
        getNextBatchIdOf cexStore < getNextBatchIdOf (cexStore ++ cexNew)) :=
  ⟨by decide,
    getNextBatchIdOf_strictly_increasing cexStore cexNew (by decide) (by decide)⟩

/-- Claim C6, amended: the only defensive check `getNextBatchId` applies to
the parsed `next_batch_id` value is the NaN check — whenever the response's
first row parses to an integer `v`, including zero and negative values, the
allocator returns `v` as the batch id (there is no positivity check). -/
theorem getNextBatchId_returns_parsed (s : String) (v : Int)
    (h : jsParseInt s = some v) :
    getNextBatchId (QueryResp.ok [s]) = Except.ok v := by
  simp [getNextBatchId, h]

/-- Counterexample to C6 as stated: a malformed storage response whose
`next_batch_id` field parses to the non-positive value `-5` is not rejected;
`getNextBatchId` returns `-5` as a batch id. -/
theorem getNextBatchId_negative_counterexample :
    getNextBatchId (QueryResp.ok ["-5"]) = Except.ok (-5) ∧ ¬(1 : Int) ≤ -5 :=
  ⟨rfl, by decide⟩

/-- Witness for the amended C6 at the parsed value 0. -/
theorem getNextBatchId_returns_parsed_witness :
    jsParseInt "0" = some 0 ∧ getNextBatchId (QueryResp.ok ["0"]) = Except.ok 0 :=
  ⟨by decide, getNextBatchId_returns_parsed "0" 0 (by decide)⟩

/-! The batch reader (`fetchBatchData`). -/

/-- A JavaScript number argument: `NaN` or a rational value (the code only
applies `isNaN`, ordering and equality to it). -/
inductive JSNum where
  | nan
  | val (q : ℚ)
  deriving DecidableEq

/-- The `eq(sheetData.batchId, batchId)` comparison of the integer
`batch_id` column against the JS number argument. -/
def jsNumEqInt : JSNum → Int → Bool
  | .nan, _ => false
  | .val q, m => decide (q = (m : ℚ))

/-- The row ordering of `orderBy(asc(sheetData.rowNumber))`. -/
def rowLe {α : Type} (x y : StoredRow α) : Prop := x.rowNumber ≤ y.rowNumber

/-- Strict version of `rowLe`, for uniqueness-of-order arguments. -/
def rowLt {α : Type} (x y : StoredRow α) : Prop := x.rowNumber < y.rowNumber

instance {α : Type} : DecidableRel (rowLe (α := α)) :=
  fun x y => inferInstanceAs (Decidable (x.rowNumber ≤ y.rowNumber))

instance {α : Type} : IsTotal (StoredRow α) rowLe :=
  ⟨fun x y => Int.le_total x.rowNumber y.rowNumber⟩

instance {α : Type} : IsTrans (StoredRow α) rowLe :=
  ⟨fun _ _ _ h1 h2 => le_trans h1 h2⟩

instance {α : Type} : IsAntisymm (StoredRow α) (rowLt (α := α)) :=
  ⟨fun _ _ h1 h2 => absurd h2 (lt_asymm h1)⟩

/-- Embedding of `fetchBatchData` (`src/db/index.ts`): reject a `NaN` or
below-1 argument with a 400 error before issuing any query; propagate a
query failure as a 500 error; otherwise return the rows whose `batch_id`
equals the argument, ordered ascending by `row_number`. -/
def fetchBatchData {α : Type} (store : List (StoredRow α)) (queryOk : Bool)
    (batchId : JSNum) : Except AppError (List (StoredRow α)) :=
  if (match batchId with | .nan => true | .val q => decide (q < 1)) then
    .error ⟨"Invalid batchId. Must be a positive number.", 400⟩
  else if !queryOk then
    .error ⟨"Failed to fetch batch data", 500⟩
  else
    .ok (List.insertionSort rowLe (store.filter (fun r => jsNumEqInt batchId r.batchId)))

/-- Claim C7, amended: `fetchBatchData` raises its 400 invalid-argument
error exactly when the argument is `NaN` or has value below 1.  (As stated
the claim is false: a non-integer argument of value at least 1, such as
1.5, passes the `isNaN(batchId) || batchId < 1` check — see the
counterexample.) -/
theorem fetchBatchData_invalid_iff {α : Type} (store : List (StoredRow α))
    (queryOk : Bool) (b : JSNum) :
    (∃ e, fetchBatchData store queryOk b = .error e ∧ e.statusCode = 400)
      ↔ b = JSNum.nan ∨ ∃ q, b = JSNum.val q ∧ q < 1 := by
  cases b with
  | nan => simp [fetchBatchData]
  | val q =>
    by_cases hq : q < 1
    · simp [fetchBatchData, hq]
    · cases queryOk <;> simp [fetchBatchData, hq]

/-- Counterexample to C7 as stated: the non-integer argument 1.5 (denominator
2, hence not a positive integer) is not rejected: the store query is issued
and, on an empty store, `fetchBatchData` returns `.ok []` rather than a 400
error. -/
theorem fetchBatchData_nonint_counterexample :
    fetchBatchData ([] : List (StoredRow String)) true (JSNum.val (mkRat 3 2)) = Except.ok []
      ∧ (mkRat 3 2).den = 2 ∧ (1 : ℚ) ≤ mkRat 3 2 := by
  refine ⟨?_, by decide, by decide⟩
  rfl

lemma sorted_strict_of_pairwise_ne {α : Type} (l : List (StoredRow α))
    (h : l.Pairwise (fun x y => x.rowNumber ≠ y.rowNumber)) :
    List.Sorted rowLt (List.insertionSort rowLe l) := by
  have hs := List.sorted_insertionSort rowLe l
  have hp : (List.insertionSort rowLe l).Pairwise (fun x y => x.rowNumber ≠ y.rowNumber) :=
    ((List.perm_insertionSort rowLe l).pairwise_iff (fun hxy => hxy.symm)).mpr h
  exact (hs.and hp).imp (fun hab => lt_of_le_of_ne hab.1 hab.2)

lemma jsNumEqInt_cast {α : Type} (b : Int) (r : StoredRow α) :
    jsNumEqInt (JSNum.val (b : ℚ)) r.batchId = (r.batchId == b) := by
  by_cases h : r.batchId = b
  · simp [jsNumEqInt, h]
  · simp [jsNumEqInt, h, Ne.symm h]

/-- Claim C8: for every positive integer batch id (the row numbers within
that batch being pairwise distinct, as the store's uniqueness constraint on
`(batch_id, row_number)` guarantees), `fetchBatchData` returns exactly the
rows whose `batchId` equals the argument, sorted strictly ascending by
`rowNumber`, and the returned sequence is identical for any arrival order
(permutation) of the store — hence independent of storage-assigned ids. -/
theorem fetchBatchData_ordered {α : Type} (store store2 : List (StoredRow α)) (b : Int)
    (hb : 1 ≤ b)
    (hnd : ((store.filter (fun r => r.batchId == b)).map (fun r => r.rowNumber)).Nodup)
    (hperm : store2.Perm store) :
    fetchBatchData store true (JSNum.val (b : ℚ))
        = Except.ok (List.insertionSort rowLe (store.filter (fun r => r.batchId == b)))
      ∧ (List.insertionSort rowLe (store.filter (fun r => r.batchId == b))).Perm
          (store.filter (fun r => r.batchId == b))
      ∧ List.Sorted rowLt (List.insertionSort rowLe (store.filter (fun r => r.batchId == b)))
      ∧ fetchBatchData store2 true (JSNum.val (b : ℚ))
          = Except.ok (List.insertionSort rowLe (store.filter (fun r => r.batchId == b))) := by
  have hq : ¬((b : ℚ) < 1) := by
    rw [not_lt]
    exact_mod_cast hb
  have hfilter : ∀ l : List (StoredRow α),
      l.filter (fun r => jsNumEqInt (JSNum.val (b : ℚ)) r.batchId)
        = l.filter (fun r => r.batchId == b) := by
    intro l
    exact List.filter_congr (fun r _ => jsNumEqInt_cast b r)
  have hpair : (store.filter (fun r => r.batchId == b)).Pairwise
      (fun x y => x.rowNumber ≠ y.rowNumber) := List.pairwise_map.mp hnd
  have hsorted := sorted_strict_of_pairwise_ne _ hpair
  have hfetch : fetchBatchData store true (JSNum.val (b : ℚ))
      = Except.ok (List.insertionSort rowLe (store.filter (fun r => r.batchId == b))) := by
    unfold fetchBatchData
    rw [if_neg (by simp [hq]), if_neg (by simp), hfilter store]
  refine ⟨hfetch, List.perm_insertionSort rowLe _, hsorted, ?_⟩
  have hpair2 : (store2.filter (fun r => r.batchId == b)).Pairwise
      (fun x y => x.rowNumber ≠ y.rowNumber) :=
    ((hperm.filter (fun r => r.batchId == b)).pairwise_iff (fun hxy => hxy.symm)).mpr hpair
  have hsorted2 := sorted_strict_of_pairwise_ne _ hpair2
  have hpermsort : (List.insertionSort rowLe (store2.filter (fun r => r.batchId == b))).Perm
      (List.insertionSort rowLe (store.filter (fun r => r.batchId == b))) :=
    ((List.perm_insertionSort rowLe _).trans (hperm.filter _)).trans
      (List.perm_insertionSort rowLe _).symm
  have heq := List.eq_of_perm_of_sorted hpermsort hsorted2 hsorted
  unfold fetchBatchData
  rw [if_neg (by simp [hq]), if_neg (by simp), hfilter store2, heq]

/-- A concrete store: batch 1 arrived out of order (row 2 before row 1),
with an unrelated batch-2 row in between. -/
def wStore : List (StoredRow String) :=
  [⟨1, 1, 2, "second", 0⟩, ⟨2, 2, 1, "other", 0⟩, ⟨3, 1, 1, "first", 0⟩]

/-- The same store contents in reversed arrival order. -/
def wStore2 : List (StoredRow String) := wStore.reverse

/-- Witness for C8 at the concrete store. -/
theorem fetchBatchData_ordered_witness :
    (1 : Int) ≤ 1 ∧
      ((wStore.filter (fun r => r.batchId == 1)).map (fun r => r.rowNumber)).Nodup ∧
      wStore2.Perm wStore ∧
      (fetchBatchData wStore true (JSNum.val ((1 : Int) : ℚ))
          = Except.ok (List.insertionSort rowLe (wStore.filter (fun r => r.batchId == 1)))
        ∧ (List.insertionSort rowLe (wStore.filter (fun r => r.batchId == 1))).Perm
            (wStore.filter (fun r => r.batchId == 1))
        ∧ List.Sorted rowLt
            (List.insertionSort rowLe (wStore.filter (fun r => r.batchId == 1)))
        ∧ fetchBatchData wStore2 true (JSNum.val ((1 : Int) : ℚ))
            = Except.ok (List.insertionSort rowLe (wStore.filter (fun r => r.batchId == 1)))) :=
  ⟨by decide, by decide, by decide,
    fetchBatchData_ordered wStore wStore2 1 (by decide) (by decide) (by decide)⟩

/-! The `POST /api/upload-sheet-data` response construction
(`src/index.ts` together with `createSuccessResponse` of
`src/utils/errors.ts`). -/

/-- A JSON value, for the response bodies the HTTP layer marshals. -/
inductive JVal where
  | jbool (b : Bool)
  | jnum (n : Int)
  | jstr (s : String)
  | jarr (xs : List JVal)
  | jobj (fields : List (String × JVal))

/-- JSON serialization of one `RowError` entry (field order as in
`src/types.ts`). -/
def rowErrorToJson {α : Type} (enc : α → JVal) (e : RowError α) : JVal :=
  .jobj [("rowIndex", .jnum e.rowIndex), ("rowNumber", .jnum e.rowNumber),
    ("rowData", enc e.rowData), ("error", .jstr e.error)]

/-- Embedding of `createSuccessResponse` (`src/utils/errors.ts`):
`success: true` always, then `message` only when provided, then `data` only
when provided (an absent field is absent from the object, not null). -/
def createSuccessResponse (data : Option JVal) (message : Option String) : JVal :=
  .jobj ([("success", JVal.jbool true)]
    ++ (match message with | some m => [("message", JVal.jstr m)] | none => [])
    ++ (match data with | some d => [("data", d)] | none => []))

/-- The response mapping of the `POST /api/upload-sheet-data` handler
(`src/index.ts`) applied to a `storeSheetData` result: a non-empty error
list yields 207 with `data = {batchId, inserted, errors}`; an empty error
list yields 200 with `data = {batchId, inserted}` (no `errors` key). -/
def uploadResponse {α : Type} (enc : α → JVal) (result : StoreSheetDataResult α) :
    Nat × JVal :=
  if result.errors.length > 0 then
    (207, createSuccessResponse
      (some (.jobj [("batchId", .jnum result.batchId),
        ("inserted", .jnum result.inserted),
        ("errors", .jarr (result.errors.map (rowErrorToJson enc)))]))
      (some ("Data stored with " ++ toString result.errors.length ++ " errors")))
  else
    (200, createSuccessResponse
      (some (.jobj [("batchId", .jnum result.batchId),
        ("inserted", .jnum result.inserted)]))
      (some ("Successfully stored " ++ toString result.inserted ++ " rows to database")))

/-- The keys of a JSON object (empty for non-objects). -/
def objKeys : JVal → List String
  | .jobj fs => fs.map (fun f => f.1)
  | _ => []

/-- Field lookup in a JSON object. -/
def lookupKey (v : JVal) (k : String) : Option JVal :=
  match v with
  | .jobj fs => (fs.find? (fun f => f.1 == k)).map (fun f => f.2)
  | _ => none

/-- The keys of the `data` object of a response body. -/
def responseDataKeys (body : JVal) : List String :=
  objKeys ((lookupKey body "data").getD (JVal.jobj []))

/-- Claim C10: the upload handler's status is 200 exactly when the result
has zero row errors, in which case the `data` object has exactly the keys
`batchId` and `inserted` (no `errors` key at all); the status is 207 exactly
when the error list is non-empty, and only then does `data` carry the
`errors` key. -/
theorem uploadResponse_keys {α : Type} (enc : α → JVal) (r : StoreSheetDataResult α) :
    (uploadResponse enc r).1 = (if r.errors.isEmpty then 200 else 207)
      ∧ responseDataKeys (uploadResponse enc r).2
          = (if r.errors.isEmpty then ["batchId", "inserted"]
             else ["batchId", "inserted", "errors"]) := by
  cases herr : r.errors with
  | nil =>
    constructor
    · simp [uploadResponse, herr]
    · simp [uploadResponse, herr, responseDataKeys, lookupKey, objKeys,
        createSuccessResponse]
  | cons e es =>
    constructor
    · simp [uploadResponse, herr]
    · simp [uploadResponse, herr, responseDataKeys, lookupKey, objKeys,
        createSuccessResponse]

end Sparti
